import Mathlib

/-!
# Verification of the DeepSeek-OCR language-model core (deepseek-ocr.rs)

A shallow embedding of the orchestration code in
`crates/core/src/transformer/model.rs` and `crates/core/src/runtime.rs`,
together with spec-modelled components whose Rust sources are not part of
the reviewed tree (the KV cache in `transformer/cache.rs` and the decoder
stack in `transformer/decoder.rs`; the latter is treated as a black-box
function parameter, matching the spec's §4.3 "contract only" stance).

Numeric conventions: tensor element values are rationals (`ℚ`), an exact
idealisation of the floating-point values; the single non-rational kernel
operation (the square root inside RMS normalisation) is passed in as a
function parameter, since no verified claim depends on float values.
Tensor layout (strides/contiguity) is not modelled: `contiguous` is the
identity on the logical contents.
-/

namespace DeepseekOcr

/-- Error values of the model core.  The Rust code surfaces errors through
`anyhow` messages; each constructor corresponds to one distinguishable
failure site. -/
inductive MErr where
  /-- "provide exactly one of input_ids or inputs_embeds" -/
  | ambiguousInputMode
  /-- "use_cache=true requires a mutable DynamicCache" -/
  | cacheRequired
  /-- "input_ids must have shape [batch, seq], got rank r" -/
  | inputIdsRankNot2 (r : Nat)
  /-- shape errors raised by candle ops (dims2/dims3/reshape/expand/matmul/rms_norm) -/
  | shapeMismatch
  /-- candle `index_select` given an invalid (out-of-range) index -/
  | indexOutOfBounds
  /-- candle `index_select` given a non-integer index dtype -/
  | unsupportedDtype
  /-- an error surfaced from inside the decoder stack -/
  | decoderFailure
  /-- models a Rust panic (the `expect` in `forward`, unreachable under validation) -/
  | panicked
deriving DecidableEq, Repr

/-- Element types of candle tensors that this development needs. -/
inductive DType where
  | i64
  | u32
  | f32
  | f16
  | bf16
deriving DecidableEq, Repr

/-- A candle tensor: logical shape, element type, and row-major contents.
Well-formed tensors satisfy `data.length = shape.prod`; operations keep
that invariant and theorems carry it as a hypothesis where needed. -/
structure Tensor where
  shape : List Nat
  dtype : DType
  data : List ℚ
deriving DecidableEq, Repr

namespace Tensor

/-- Number of dimensions (candle `Tensor::rank`). -/
def rank (t : Tensor) : Nat := t.shape.length

/-- candle `Shape::dims2`: succeeds exactly on rank-2 tensors. -/
def dims2 (t : Tensor) : Except MErr (Nat × Nat) :=
  match t.shape with
  | [a, b] => .ok (a, b)
  | _ => .error .shapeMismatch

/-- candle `Shape::dims3`: succeeds exactly on rank-3 tensors. -/
def dims3 (t : Tensor) : Except MErr (Nat × Nat × Nat) :=
  match t.shape with
  | [a, b, c] => .ok (a, b, c)
  | _ => .error .shapeMismatch

/-- candle `Tensor::arange(start, end)` over i64: the contiguous integer
range `[start, end)` as a rank-1 tensor. -/
def arange (start stop : Int) : Tensor :=
  { shape := [(stop - start).toNat]
    dtype := .i64
    data := (List.range (stop - start).toNat).map fun i : Nat => ((start + (i : Int) : Int) : ℚ) }

/-- candle `Tensor::reshape`: succeeds iff the element counts agree. -/
def reshape (t : Tensor) (s : List Nat) : Except MErr Tensor :=
  if s.prod = t.shape.prod then .ok { t with shape := s } else .error .shapeMismatch

/-- candle `Tensor::expand` restricted to rank-2 broadcasts (the only use
in the reviewed code): each source dimension must equal the target or be 1. -/
def expand (t : Tensor) (s : List Nat) : Except MErr Tensor :=
  match t.shape, s with
  | [a, b], [c, d] =>
    if (a = c ∨ a = 1) ∧ (b = d ∨ b = 1) then
      .ok { shape := [c, d], dtype := t.dtype
            data := (List.range c).flatMap fun i =>
              (List.range d).map fun j =>
                t.data.getD ((if a = 1 then 0 else i) * b + (if b = 1 then 0 else j)) 0 }
    else .error .shapeMismatch
  | _, _ => .error .shapeMismatch

/-- candle `Tensor::contiguous` / `force_contiguous`: layout is not
modelled, so these are the identity on the logical contents. -/
def contiguous (t : Tensor) : Tensor := t

/-- Truncation toward zero, the value map of a float→i64 `to_dtype`. -/
def truncQ (q : ℚ) : Int := if q < 0 then -((-q).floor) else q.floor

/-- candle `Tensor::to_dtype(DType::I64)`: integer element types keep their
values; float element types truncate toward zero. -/
def toI64 (t : Tensor) : Tensor :=
  if t.dtype = .i64 then t
  else
    { shape := t.shape
      dtype := .i64
      data := if t.dtype = .u32 then t.data else t.data.map fun q => ((truncQ q : Int) : ℚ) }

/-- Row `i` of a matrix stored row-major with row width `h`. -/
def rowOf (data : List ℚ) (h i : Nat) : List ℚ := (data.drop (i * h)).take h

/-- candle `Tensor::index_select(ids, 0)` for a rank-2 source and rank-1
index tensor (the only use in the reviewed code): requires an integer index
dtype and every index integral and within `[0, rows)`. -/
def indexSelect0 (src idx : Tensor) : Except MErr Tensor :=
  match src.shape, idx.shape with
  | [v, h], [n] =>
    if idx.dtype = .i64 ∨ idx.dtype = .u32 then
      if idx.data.all (fun q => decide (0 ≤ q) && decide (q < (v : ℚ)) && decide (q.den = 1)) then
        .ok { shape := [n, h], dtype := src.dtype
              data := (idx.data.map fun q => rowOf src.data h q.num.toNat).flatten }
      else .error .indexOutOfBounds
    else .error .unsupportedDtype
  | _, _ => .error .shapeMismatch

/-- candle `Tensor::transpose(0, 1)` on a rank-2 tensor. -/
def transpose2 (t : Tensor) : Except MErr Tensor :=
  match t.shape with
  | [a, b] =>
    .ok { shape := [b, a], dtype := t.dtype
          data := (List.range b).flatMap fun i =>
            (List.range a).map fun j => t.data.getD (j * b + i) 0 }
  | _ => .error .shapeMismatch

/-- candle `Tensor::matmul` on rank-2 tensors: inner dimensions must agree. -/
def matmul (t u : Tensor) : Except MErr Tensor :=
  match t.shape, u.shape with
  | [m, k], [k2, n] =>
    if k = k2 then
      .ok { shape := [m, n], dtype := t.dtype
            data := (List.range m).flatMap fun i =>
              (List.range n).map fun j =>
                ((List.range k).map fun l =>
                  t.data.getD (i * k + l) 0 * u.data.getD (l * n + j) 0).sum }
    else .error .shapeMismatch
  | _, _ => .error .shapeMismatch

end Tensor

/-- `candle_nn::ops::rms_norm(x, alpha, eps)`: `alpha` must be rank 1 with
length equal to `x`'s last dimension; each element is divided by the square
root of (mean of squares of its row + eps) and scaled by `alpha`.  The
square root is the one non-rational kernel step and is supplied as the
function parameter `sq`. -/
def rmsNorm (x alpha : Tensor) (eps : ℚ) (sq : ℚ → ℚ) : Except MErr Tensor :=
  match alpha.shape with
  | [h] =>
    if x.shape.getLast? = some h then
      .ok { shape := x.shape, dtype := x.dtype
            data := x.data.mapIdx fun i q =>
              let r := i / h
              let m := (((List.range h).map fun j => x.data.getD (r * h + j) 0 ^ 2).sum) / h
              q / sq (m + eps) * alpha.data.getD (i % h) 0 }
    else .error .shapeMismatch
  | _ => .error .shapeMismatch

/-- Modelled from the spec: one decoder layer's accumulated key/value rows
(`crates/core/src/transformer/cache.rs` is not part of the reviewed tree).
Per spec §3, each cache entry holds "accumulated key and value tensors
along the sequence dimension"; here each sequence position contributes one
key row and one value row. -/
structure LayerKV where
  keys : List (List ℚ)
  values : List (List ℚ)
deriving DecidableEq, Repr

/-- Modelled from the spec: the per-session KV cache
(`crates/core/src/transformer/cache.rs` is not part of the reviewed tree):
"an ordered collection, one entry per decoder layer, ... plus a single
integer tracking current total sequence length". -/
structure DynamicCache where
  layers : List LayerKV
  seqLength : Nat
deriving DecidableEq, Repr

/-- Modelled from the spec: `DynamicCache::seq_len` returns an `Option`
(the facade calls `c.seq_len()` through `and_then` and `unwrap_or(0)`);
an empty cache reports no length ("0 when empty, `None`/absent
distinguishes 'no cache in use' from 'empty cache'", spec §3). -/
def DynamicCache.seq_len (c : DynamicCache) : Option Nat :=
  if c.seqLength = 0 then none else some c.seqLength

/-- Modelled from the spec (§4.3): appending one call's newly computed
key/value rows to a layer entry, "preserving all previously stored entries
bit-for-bit and only extending the sequence axis". -/
def LayerKV.appendTokens (l new : LayerKV) : LayerKV :=
  { keys := l.keys ++ new.keys, values := l.values ++ new.values }

/-- Modelled from the spec (§4.3/§4.4): one decode call's in-place cache
mutation — every layer appends its `n` new key/value rows and the tracked
sequence length grows by the new-token count `n`. -/
def DynamicCache.appendStep (c : DynamicCache) (n : Nat) (new : List LayerKV) : DynamicCache :=
  { layers := List.zipWith LayerKV.appendTokens c.layers new
    seqLength := c.seqLength + n }

/-- Modelled from the spec: a sequence of decode calls on one session's
cache, each step carrying its new-token count and per-layer new rows. -/
def DynamicCache.appendRun (c : DynamicCache) (steps : List (Nat × List LayerKV)) : DynamicCache :=
  steps.foldl (fun acc st => acc.appendStep st.1 st.2) c

/-- Configuration parameters used by the language model.  Modelled from the
spec (§3, §6): `DeepseekV2Config` itself lives in `crates/core/src/config.rs`,
which is not part of the reviewed tree; the fields are the ones the facade
reads (`vocab_size`, `rms_norm_eps`, `attn_implementation`) plus the
spec-listed hidden size and layer count. -/
structure DeepseekV2Config where
  vocab_size : Nat
  hidden_size : Nat
  rms_norm_eps : ℚ
  attn_implementation : Option String
  num_hidden_layers : Nat
deriving DecidableEq, Repr

/-- The weight tensors the facade stores (`DeepseekLanguageModelWeights`
minus the per-layer transformer weights, which only the black-box decoder
consumes). -/
structure DeepseekLanguageModelWeights where
  token_embedding : Tensor
  final_layernorm : Tensor
  lm_head : Tensor
deriving DecidableEq, Repr

/-- Rust `char::to_ascii_lowercase`. -/
def asciiLowerChar (c : Char) : Char :=
  if 'A' ≤ c ∧ c ≤ 'Z' then Char.ofNat (c.toNat + 32) else c

/-- Rust `str::to_ascii_lowercase`: lower each character in place. -/
def asciiLower (s : String) : String := String.mk (s.data.map asciiLowerChar)

/-- Rust `str::eq_ignore_ascii_case`. -/
def eqIgnoreAsciiCase (s t : String) : Bool := asciiLower s == asciiLower t

/-- The flash-attention choice taken from the configuration alone
(`model.rs` lines 49–53). -/
def flashFromConfig (cfg : DeepseekV2Config) : Bool :=
  (cfg.attn_implementation.map fun s => eqIgnoreAsciiCase s "flash_attention_2").getD false

/-- Parsing of the `DEEPSEEK_OCR_FLASH_ATTENTION` environment variable
(`model.rs` lines 54–60); `none` for the variable models `env::var`
failing (unset or non-unicode). -/
def parseFlashOverride : Option String → Option Bool
  | none => none
  | some v =>
    match asciiLower v with
    | "1" => some true
    | "true" => some true
    | "yes" => some true
    | "0" => some false
    | "false" => some false
    | "no" => some false
    | _ => none

/-- The language-model facade state.  The decoder stack itself
(`TransformerDecoder`) is black-box per spec §4.3 and is passed to
`forward` as a function parameter; the facade stores the flash-attention
choice resolved once at construction. -/
structure DeepseekLanguageModel where
  cfg : DeepseekV2Config
  useFlashAttention : Bool
  token_embedding : Tensor
  final_layernorm : Tensor
  lm_head : Tensor
deriving DecidableEq, Repr

/-- `DeepseekLanguageModel::from_weights` (`model.rs` lines 47–75): resolves
the attention-kernel choice (environment override > configuration >
default `false`) once, then stores the weight tensors. -/
def from_weights (cfg : DeepseekV2Config) (weights : DeepseekLanguageModelWeights)
    (envFlash : Option String) : DeepseekLanguageModel :=
  { cfg := cfg
    useFlashAttention := (parseFlashOverride envFlash).getD (flashFromConfig cfg)
    token_embedding := weights.token_embedding
    final_layernorm := weights.final_layernorm
    lm_head := weights.lm_head }

/-- `DeepseekLanguageModel::flash_attention_enabled`: reads the stored
construction-time choice; the environment is never consulted again. -/
def flash_attention_enabled (m : DeepseekLanguageModel) : Bool := m.useFlashAttention

/-- `gather_embeddings` (`model.rs` lines 187–200): validate that the ids
are rank 2, read the table and id shapes, flatten the ids, select the
matching table rows, and reshape to `[batch, seq, hidden]`. -/
def gather_embeddings (weight ids : Tensor) : Except MErr Tensor :=
  if ids.rank = 2 then
    match weight.dims2 with
    | .error e => .error e
    | .ok (_vocab, hidden) =>
      match ids.dims2 with
      | .error e => .error e
      | .ok (batch, seq) =>
        match (ids.reshape [batch * seq]).map Tensor.contiguous with
        | .error e => .error e
        | .ok flat =>
          match Tensor.indexSelect0 weight.contiguous flat with
          | .error e => .error e
          | .ok gathered => gathered.reshape [batch, seq, hidden]
  else .error (.inputIdsRankNot2 ids.rank)

/-- `DeepseekLanguageModel::embed_tokens` (`model.rs` lines 95–102):
normalise the id dtype to `I64`, then gather table rows. -/
def embed_tokens (m : DeepseekLanguageModel) (input_ids : Tensor) : Except MErr Tensor :=
  gather_embeddings m.token_embedding input_ids.toI64

/-- Output of the black-box decoder stack (spec §4.3). -/
structure DecoderOutput where
  hidden_states : Tensor
  aux_loss : Option Tensor
deriving DecidableEq, Repr

/-- The decoder stack as a state-passing function: embeddings, optional
attention mask, optional position ids, cache state and the `use_cache`
flag, returning its result together with the post-call cache state (the
in-place mutation of the Rust `Option<&mut DynamicCache>`).  The Rust
implementation (`transformer/decoder.rs`) is not part of the reviewed
tree; spec §4.3 specifies it as a contract only. -/
def DecoderFn : Type :=
  Tensor → Option Tensor → Option Tensor → Option DynamicCache → Bool →
    Except MErr DecoderOutput × Option DynamicCache

/-- The embedding-resolution step of `forward` (`model.rs` lines 132–143):
caller-supplied embeddings are used as-is; otherwise ids are converted to
`I64` and looked up.  `.panicked` models the `expect` that is unreachable
once the input-mode validation has passed. -/
def resolveEmbeds (m : DeepseekLanguageModel)
    (input_ids inputs_embeds : Option Tensor) : Except MErr Tensor :=
  match inputs_embeds with
  | some t => .ok t
  | none =>
    match input_ids with
    | none => .error .panicked
    | some ids => gather_embeddings m.token_embedding ids.toI64

/-- The position-synthesis step of `forward` (`model.rs` lines 147–159):
`arange(past_len, past_len + seq)`, reshaped to `[1, seq]`, expanded to
`[batch, seq]`, made contiguous. -/
def synthesized_positions (past_len batch seq : Nat) : Except MErr Tensor :=
  match (Tensor.arange (past_len : Int) ((past_len : Int) + (seq : Int))).reshape [1, seq] with
  | .error e => .error e
  | .ok t =>
    match t.expand [batch, seq] with
    | .error e => .error e
    | .ok t2 => .ok t2.contiguous

/-- Output of a language-model forward pass (`LanguageModelOutput`). -/
structure LanguageModelOutput where
  hidden_states : Tensor
  logits : Tensor
  aux_loss : Option Tensor
deriving DecidableEq, Repr

/-- The output-projection tail of `forward` (`model.rs` lines 169–183):
RMS-normalise the decoder's hidden states, flatten batch and sequence,
multiply by the transposed vocabulary projection, and reshape to
`[batch, seq, vocab_size]`. -/
def project_output (m : DeepseekLanguageModel) (sq : ℚ → ℚ)
    (hidden : Tensor) (aux : Option Tensor) : Except MErr LanguageModelOutput :=
  match rmsNorm hidden m.final_layernorm m.cfg.rms_norm_eps sq with
  | .error e => .error e
  | .ok normed =>
    match normed.dims3 with
    | .error e => .error e
    | .ok (b, s, h) =>
      match normed.reshape [b * s, h] with
      | .error e => .error e
      | .ok flat =>
        match m.lm_head.transpose2 with
        | .error e => .error e
        | .ok lmT =>
          match flat.matmul lmT with
          | .error e => .error e
          | .ok prod =>
            match prod.reshape [b, s, m.cfg.vocab_size] with
            | .error e => .error e
            | .ok logits => .ok { hidden_states := normed, logits := logits, aux_loss := aux }

/-- `DeepseekLanguageModel::forward` (`model.rs` lines 113–184), as a
state-passing function over the optional cache: the second component of
the result is the cache state the caller's reference sees after the call.
The decoder stack `dec` and the float square root `sq` are the two
black-box parameters (see the module docstring). -/
def forward (m : DeepseekLanguageModel) (dec : DecoderFn) (sq : ℚ → ℚ)
    (input_ids inputs_embeds attention_mask position_ids : Option Tensor)
    (cache : Option DynamicCache) (use_cache : Bool) :
    Except MErr LanguageModelOutput × Option DynamicCache :=
  if input_ids.isSome == inputs_embeds.isSome then
    (.error .ambiguousInputMode, cache)
  else if use_cache && cache.isNone then
    (.error .cacheRequired, cache)
  else
    let past_len := (cache.bind DynamicCache.seq_len).getD 0
    match resolveEmbeds m input_ids inputs_embeds with
    | .error e => (.error e, cache)
    | .ok embeds =>
      match embeds.dims3 with
      | .error e => (.error e, cache)
      | .ok (batch, seq_len, _) =>
        let posE : Except MErr Tensor :=
          match position_ids with
          | some p => .ok p
          | none => synthesized_positions past_len batch seq_len
        match posE with
        | .error e => (.error e, cache)
        | .ok pos =>
          match dec embeds attention_mask (some pos) cache use_cache with
          | (.error e, c2) => (.error e, c2)
          | (.ok dout, c2) =>
            match project_output m sq dout.hidden_states dout.aux_loss with
            | .error e => (.error e, c2)
            | .ok out => (.ok out, c2)

/-! ## Runtime device/precision preparation (`crates/core/src/runtime.rs`) -/

/-- `runtime::DeviceKind`. -/
inductive DeviceKind where
  | cpu
  | metal
  | cuda
deriving DecidableEq, Repr

/-- `runtime::Precision`. -/
inductive Precision where
  | f32
  | f16
  | bf16
deriving DecidableEq, Repr

/-- Errors of `prepare_device_and_dtype_with_options`, one constructor per
`bail!`/`context` site. -/
inductive RtErr where
  /-- "GPU memory utilization must be between 0.0 and 1.0, got u" -/
  | gpuMemOutOfRange (u : ℚ)
  /-- "Maximum number of sequences must be greater than 0" -/
  | maxSeqsZero
  /-- "failed to initialise Metal device" / "failed to initialise CUDA device" -/
  | deviceInitFailed
deriving DecidableEq, Repr

/-- `runtime::dtype_from_precision`. -/
def dtype_from_precision : Precision → DType
  | .f32 => .f32
  | .f16 => .f16
  | .bf16 => .bf16

/-- The device-construction arm of `prepare_device_and_dtype_with_options`
(`runtime.rs` lines 49–59).  `Device::new_metal(0)` / `Device::new_cuda(0)`
are external candle constructors; their availability is passed in as the
booleans `metalOk` / `cudaOk`. -/
def resolveDevice (device : DeviceKind) (metalOk cudaOk : Bool) :
    Except RtErr (DeviceKind × Option Precision) :=
  match device with
  | .cpu => .ok (.cpu, none)
  | .metal => if metalOk then .ok (.metal, some .f16) else .error .deviceInitFailed
  | .cuda => if cudaOk then .ok (.cuda, some .f16) else .error .deviceInitFailed

/-- `runtime::prepare_device_and_dtype_with_options` (`runtime.rs` lines
29–75): validate `gpu_memory_utilization` (must lie in `[0, 1]`), then
`max_num_seqs` (must be nonzero), then construct the device and resolve
the dtype as `precision.or(device default).map(dtype_from_precision)`.
The `f32` parameter is modelled as `ℚ` (its `NaN`, for which the Rust
range check also fails, has no rational counterpart). -/
def prepare_device_and_dtype_with_options (device : DeviceKind)
    (precision : Option Precision) (gpu_memory_utilization : Option ℚ)
    (max_num_seqs : Option Nat) (metalOk cudaOk : Bool) :
    Except RtErr (DeviceKind × Option DType) :=
  let afterChecks : Except RtErr (DeviceKind × Option DType) :=
    match resolveDevice device metalOk cudaOk with
    | .error e => .error e
    | .ok (dev, defaultPrecision) =>
      .ok (dev, (precision.or defaultPrecision).map dtype_from_precision)
  let afterGpuCheck : Except RtErr (DeviceKind × Option DType) :=
    match max_num_seqs with
    | some maxSeqs => if maxSeqs = 0 then .error .maxSeqsZero else afterChecks
    | none => afterChecks
  match gpu_memory_utilization with
  | some u =>
    if 0 ≤ u ∧ u ≤ 1 then afterGpuCheck else .error (.gpuMemOutOfRange u)
  | none => afterGpuCheck

/-! ## Concrete fixtures used to evaluate the definitions -/

/-- Whether an `Except` result is a success. -/
def isOkB {α : Type} : Except MErr α → Bool
  | .ok _ => true
  | .error _ => false

/-- The logits shape of a forward result (`[]` on failure). -/
def logitsShape (r : Except MErr LanguageModelOutput × Option DynamicCache) : List Nat :=
  match r.1 with
  | .ok o => o.logits.shape
  | .error _ => []

/-- The expected synthesized position tensor: the range `[L, L+s)` repeated
identically for each of the `b` batch rows. -/
def posTensor (L b s : Nat) : Tensor :=
  { shape := [b, s]
    dtype := .i64
    data := (List.replicate b ((List.range s).map fun i => ((L + i : ℕ) : ℚ))).flatten }

/-- A tiny concrete configuration: vocabulary 2, hidden size 1. -/
def testCfg : DeepseekV2Config :=
  { vocab_size := 2, hidden_size := 1, rms_norm_eps := 0
    attn_implementation := none, num_hidden_layers := 1 }

/-- Tiny concrete weights matching `testCfg`. -/
def testWeights : DeepseekLanguageModelWeights :=
  { token_embedding := { shape := [2, 1], dtype := .f32, data := [10, 20] }
    final_layernorm := { shape := [1], dtype := .f32, data := [1] }
    lm_head := { shape := [2, 1], dtype := .f32, data := [1, 1] } }

/-- The tiny model, constructed with no environment override. -/
def testModel : DeepseekLanguageModel := from_weights testCfg testWeights none

/-- A decoder instance satisfying the §4.3 contract shape-wise: it echoes
the embeddings as hidden states and leaves the cache untouched. -/
def echoDec : DecoderFn := fun e _ _ c _ => (.ok { hidden_states := e, aux_loss := none }, c)

/-- A concrete stand-in for the float square root (claims do not depend on
float values). -/
def oneSq : ℚ → ℚ := fun _ => 1

/-- Concrete token ids of shape `[1, 2]`. -/
def idsT : Tensor := { shape := [1, 2], dtype := .i64, data := [0, 1] }

/-- Concrete token ids of shape `[2, 3]` (the spec's `[2,3,H]` example). -/
def idsT23 : Tensor := { shape := [2, 3], dtype := .i64, data := [0, 1, 1, 0, 0, 1] }

/-- An empty per-session cache with one layer slot. -/
def emptyCache : DynamicCache := { layers := [{ keys := [], values := [] }], seqLength := 0 }

/-- A cache of sequence length 7 (contents irrelevant for position synthesis). -/
def cacheLen7 : DynamicCache := { layers := [{ keys := [], values := [] }], seqLength := 7 }

/-- Single-token ids of shape `[1, 1]` for the decode-phase example. -/
def idsT1 : Tensor := { shape := [1, 1], dtype := .i64, data := [1] }

/-- Concrete precomputed embeddings of shape `[1, 5, 1]` (prompt phase). -/
def embT5 : Tensor := { shape := [1, 5, 1], dtype := .f32, data := [1, 2, 3, 4, 5] }

/-- Concrete precomputed embeddings of shape `[1, 1, 1]` (decode phase). -/
def embT1 : Tensor := { shape := [1, 1, 1], dtype := .f32, data := [1] }

/-- A configuration selecting flash attention, to exercise override precedence. -/
def cfgFlash : DeepseekV2Config :=
  { testCfg with attn_implementation := some "flash_attention_2" }

/-- A one-layer cache already holding one stored key/value row. -/
def capCache1 : DynamicCache :=
  { layers := [{ keys := [[9]], values := [[8]] }], seqLength := 1 }

/-- Two decode steps: one adding two tokens, one adding a single token. -/
def capSteps : List (Nat × List LayerKV) :=
  [(2, [{ keys := [[1], [2]], values := [[3], [4]] }]),
   (1, [{ keys := [[5]], values := [[6]] }])]

/-! ## Theorems -/

/-- Helper: `getD`-indexing the range of a list reproduces the list. -/
theorem map_range_getD (s : Nat) (l : List ℚ) (h : l.length = s) :
    (List.range s).map (fun j => l.getD j 0) = l := by
  apply List.ext_getElem?
  intro i
  by_cases hi : i < s
  · rw [List.getElem?_map, List.getElem?_range hi]
    simp only [Option.map_some']
    rw [List.getD_eq_getElem?_getD]
    have : i < l.length := h ▸ hi
    rw [List.getElem?_eq_getElem this]
    rfl
  · have h1 : ((List.range s).map (fun j => l.getD j 0)).length ≤ i := by
      simp only [List.length_map, List.length_range]; omega
    have h2 : l.length ≤ i := by omega
    rw [List.getElem?_eq_none h1, List.getElem?_eq_none h2]

/-- Helper: expanding a `[1, s]` tensor to `[b, s]` replicates its row. -/
theorem expand_row (row : List ℚ) (b s : Nat) :
    Tensor.expand { shape := [1, s], dtype := DType.i64, data := row } [b, s]
      = .ok { shape := [b, s], dtype := DType.i64,
              data := (List.range b).flatMap fun _ =>
                (List.range s).map fun j => row.getD (if s = 1 then 0 else j) 0 } := by
  simp [Tensor.expand]

/-- Helper: `arange(L, L+s)` reshaped to `[1, s]` is the integer range row. -/
theorem arange_reshape_row (L s : Nat) :
    (Tensor.arange (L : Int) ((L : Int) + (s : Int))).reshape [1, s]
      = .ok { shape := [1, s], dtype := DType.i64,
              data := (List.range s).map fun i : Nat => (((L : Int) + (i : Int) : Int) : ℚ) } := by
  have ht : ((L : Int) + (s : Int) - (L : Int)).toNat = s := by omega
  simp [Tensor.arange, Tensor.reshape, ht]

/-- Helper: the position-synthesis pipeline produces exactly the contiguous
range `[L, L+s)` repeated identically across the `b` batch rows. -/
theorem synthesized_positions_eq (L b s : Nat) :
    synthesized_positions L b s = .ok (posTensor L b s) := by
  have hlen : ((List.range s).map fun i : Nat => (((L : Int) + (i : Int) : Int) : ℚ)).length = s := by
    simp
  have hrow_nat : ((List.range s).map fun i : Nat => (((L : Int) + (i : Int) : Int) : ℚ))
      = (List.range s).map fun i => ((L + i : ℕ) : ℚ) := by
    apply List.map_congr_left
    intro i _
    push_cast
    ring
  have hinner : ((List.range s).map fun j =>
        (((List.range s).map fun i : Nat => (((L : Int) + (i : Int) : Int) : ℚ)).getD
          (if s = 1 then 0 else j) 0))
      = (List.range s).map fun i : Nat => (((L : Int) + (i : Int) : Int) : ℚ) := by
    have hc : ∀ j ∈ List.range s,
        (((List.range s).map fun i : Nat => (((L : Int) + (i : Int) : Int) : ℚ)).getD
          (if s = 1 then 0 else j) 0)
        = (((List.range s).map fun i : Nat => (((L : Int) + (i : Int) : Int) : ℚ)).getD j 0) := by
      intro j hj
      rw [List.mem_range] at hj
      by_cases h1 : s = 1
      · subst h1
        interval_cases j
        simp
      · simp [h1]
    rw [List.map_congr_left hc, map_range_getD s _ hlen]
  unfold synthesized_positions
  rw [arange_reshape_row]
  simp only [expand_row, Tensor.contiguous, posTensor]
  congr 1
  congr 1
  rw [hinner, hrow_nat]
  show ((List.range b).map fun _ => (List.range s).map fun i => ((L + i : ℕ) : ℚ)).flatten
      = (List.replicate b ((List.range s).map fun i => ((L + i : ℕ) : ℚ))).flatten
  rw [List.map_const', List.length_range]

/-- C1: whenever the caller supplies no position indices, the synthesized
position tensor is exactly the contiguous range `[L, L+s)` (where `L` is
the cache length, 0 if no cache is active, and `s` the sequence length of
the resolved embeddings), repeated identically across every batch row —
and the whole forward call behaves exactly as if that tensor had been
supplied explicitly. -/
theorem forward_positions_synthesized_range
    (m : DeepseekLanguageModel) (dec : DecoderFn) (sq : ℚ → ℚ)
    (input_ids inputs_embeds attention_mask : Option Tensor)
    (cache : Option DynamicCache) (use_cache : Bool)
    (e : Tensor) (b s d L : Nat)
    (hre : resolveEmbeds m input_ids inputs_embeds = .ok e)
    (hsh : e.shape = [b, s, d])
    (hL : L = (cache.bind DynamicCache.seq_len).getD 0) :
    synthesized_positions L b s = .ok (posTensor L b s)
    ∧ forward m dec sq input_ids inputs_embeds attention_mask none cache use_cache
        = forward m dec sq input_ids inputs_embeds attention_mask (some (posTensor L b s))
            cache use_cache := by
  refine ⟨synthesized_positions_eq L b s, ?_⟩
  subst hL
  unfold forward
  by_cases h1 : (input_ids.isSome == inputs_embeds.isSome) = true
  · rw [if_pos h1, if_pos h1]
  · rw [if_neg h1, if_neg h1]
    by_cases h2 : (use_cache && cache.isNone) = true
    · rw [if_pos h2, if_pos h2]
    · rw [if_neg h2, if_neg h2]
      rw [hre]
      have hd3 : e.dims3 = .ok (b, s, d) := by simp [Tensor.dims3, hsh]
      simp only [hd3, synthesized_positions_eq]

/-- C1 witness: with an absent cache and sequence length 5 the synthesized
positions are `[0,1,2,3,4]`, and with a cache of length 7 and sequence
length 1 the single position is `[7]`; in both cases the forward call
equals the call with those positions passed explicitly. -/
theorem forward_positions_synthesized_range_witness :
    (synthesized_positions 0 1 5 = .ok (posTensor 0 1 5)
      ∧ forward testModel echoDec oneSq none (some embT5) none none none false
          = forward testModel echoDec oneSq none (some embT5) none
              (some (posTensor 0 1 5)) none false)
    ∧ (synthesized_positions 7 1 1 = .ok (posTensor 7 1 1)
      ∧ forward testModel echoDec oneSq none (some embT1) none none (some cacheLen7) false
          = forward testModel echoDec oneSq none (some embT1) none
              (some (posTensor 7 1 1)) (some cacheLen7) false)
    ∧ posTensor 0 1 5 = { shape := [1, 5], dtype := .i64, data := [0, 1, 2, 3, 4] }
    ∧ posTensor 7 1 1 = { shape := [1, 1], dtype := .i64, data := [7] } :=
  ⟨forward_positions_synthesized_range testModel echoDec oneSq none (some embT5) none
      none false embT5 1 5 1 0 rfl rfl rfl,
   forward_positions_synthesized_range testModel echoDec oneSq none (some embT1) none
      (some cacheLen7) false embT1 1 1 1 7 rfl rfl rfl,
   by decide, by decide⟩

/-- C2: supplying both of token ids and embeddings, or neither, makes
`forward` return the "ambiguous input mode" validation error immediately
— for every decoder, mask, position input, cache and `use_cache` flag —
and the returned cache state is exactly the supplied one (no mutation, no
computation: the result does not depend on `dec` or `sq`). -/
theorem forward_ambiguous_input_mode_error
    (m : DeepseekLanguageModel) (dec : DecoderFn) (sq : ℚ → ℚ)
    (input_ids inputs_embeds attention_mask position_ids : Option Tensor)
    (cache : Option DynamicCache) (use_cache : Bool)
    (h : input_ids.isSome = inputs_embeds.isSome) :
    forward m dec sq input_ids inputs_embeds attention_mask position_ids cache use_cache
      = (.error .ambiguousInputMode, cache) := by
  simp [forward, h]

/-- C2 witness: a concrete call supplying both ids and embeddings fails
with the ambiguous-input-mode error and leaves the (absent) cache as is. -/
theorem forward_ambiguous_input_mode_error_witness :
    forward testModel echoDec oneSq (some idsT) (some idsT) none none none false
      = (.error .ambiguousInputMode, none) :=
  forward_ambiguous_input_mode_error testModel echoDec oneSq
    (some idsT) (some idsT) none none none false rfl

/-- C3 counterexample: a call with `use_cache = true` and no cache that
also supplies both ids and embeddings returns the ambiguous-input-mode
validation error, not one distinguishable as "cache required" — the
input-mode check runs first. -/
theorem forward_cache_required_counterexample :
    (forward testModel echoDec oneSq (some idsT) (some idsT) none none none true).1
        = .error .ambiguousInputMode
      ∧ MErr.ambiguousInputMode ≠ MErr.cacheRequired := by
  exact ⟨rfl, by decide⟩

/-- C3 (amended): for every call with `use_cache = true`, no cache
reference, and an unambiguous input mode (exactly one of ids/embeddings
supplied), `forward` returns the "cache required" validation error and
performs no computation (the result does not depend on `dec` or `sq`,
and no cache exists to mutate). -/
theorem forward_cache_required_error
    (m : DeepseekLanguageModel) (dec : DecoderFn) (sq : ℚ → ℚ)
    (input_ids inputs_embeds attention_mask position_ids : Option Tensor)
    (hmode : input_ids.isSome ≠ inputs_embeds.isSome) :
    forward m dec sq input_ids inputs_embeds attention_mask position_ids none true
      = (.error .cacheRequired, none) := by
  simp [forward, hmode]

/-- C3 witness: a concrete single-input call with `use_cache = true` and
no cache fails with the cache-required error. -/
theorem forward_cache_required_error_witness :
    forward testModel echoDec oneSq (some idsT) none none none none true
      = (.error .cacheRequired, none) :=
  forward_cache_required_error testModel echoDec oneSq
    (some idsT) none none none (by decide)

/-- C4 counterexample: supplying a cache together with `use_cache = false`
does **not** fail validation — this concrete call succeeds, so only one
direction of the claimed biconditional is enforced by the code. -/
theorem forward_cache_without_use_cache_accepted :
    isOkB (forward testModel echoDec oneSq (some idsT) none none none
      (some emptyCache) false).1 = true := by
  rfl

/-- C4 (amended): the validation enforces only the forward direction of
the biconditional — every call that does not return a validation error
and has `use_cache = true` was supplied a cache; a call supplying a cache
with `use_cache = false` is not rejected (see the counterexample). -/
theorem forward_use_cache_requires_cache
    (m : DeepseekLanguageModel) (dec : DecoderFn) (sq : ℚ → ℚ)
    (input_ids inputs_embeds attention_mask position_ids : Option Tensor)
    (cache : Option DynamicCache) (use_cache : Bool)
    (h : isOkB (forward m dec sq input_ids inputs_embeds attention_mask position_ids
          cache use_cache).1 = true)
    (hu : use_cache = true) :
    cache.isSome = true := by
  subst hu
  by_contra hn
  rw [Bool.not_eq_true, Option.not_isSome, Option.isNone_iff_eq_none] at hn
  subst hn
  rw [forward] at h
  by_cases hb : input_ids.isSome == inputs_embeds.isSome
  · rw [if_pos hb] at h
    simp [isOkB] at h
  · rw [if_neg hb,
      if_pos (show (true && (none : Option DynamicCache).isNone) = true from rfl)] at h
    simp [isOkB] at h

/-- C4 witness: a concrete successful call with `use_cache = true` indeed
carries a cache. -/
theorem forward_use_cache_requires_cache_witness :
    (some emptyCache : Option DynamicCache).isSome = true :=
  forward_use_cache_requires_cache testModel echoDec oneSq (some idsT) none none none
    (some emptyCache) true rfl rfl

/-- C5: the embedding resolver — given a rank-2 id tensor of `I64` dtype
whose entries are integers below the vocabulary size, `gather_embeddings`
gathers the corresponding rows of the table and returns shape
`[batch, seq, hidden]`; any tensor that is not exactly rank 2 fails with
the rank shape error; `toI64` (the dtype-normalisation step) always yields
the `I64` lookup index type preserving the shape; and `embed_tokens` is
exactly dtype normalisation followed by the gather (a pure function of
weights and ids — it is a Lean function of those two arguments alone). -/
theorem gather_embeddings_spec
    (w ids : Tensor) (v h b s : Nat)
    (hw : w.shape = [v, h])
    (hids : ids.shape = [b, s])
    (hdt : ids.dtype = .i64)
    (hvals : ∀ q ∈ ids.data, ∃ n : Nat, q = (n : ℚ) ∧ n < v) :
    gather_embeddings w ids
      = .ok { shape := [b, s, h], dtype := w.dtype,
              data := (ids.data.map fun q => Tensor.rowOf w.data h q.num.toNat).flatten }
    ∧ (∀ t : Tensor, t.rank ≠ 2 → gather_embeddings w t = .error (.inputIdsRankNot2 t.rank))
    ∧ (∀ t : Tensor, (t.toI64).dtype = .i64 ∧ (t.toI64).shape = t.shape)
    ∧ (∀ m0 : DeepseekLanguageModel, ∀ t : Tensor,
        embed_tokens m0 t = gather_embeddings m0.token_embedding t.toI64) := by
  refine ⟨?_, ?_, ?_, fun _ _ => rfl⟩
  · have hrank : ids.rank = 2 := by simp [Tensor.rank, hids]
    have hwd : w.dims2 = .ok (v, h) := by simp [Tensor.dims2, hw]
    have hid2 : ids.dims2 = .ok (b, s) := by simp [Tensor.dims2, hids]
    have h3 : (ids.reshape [b * s]).map Tensor.contiguous
        = .ok { shape := [b * s], dtype := ids.dtype, data := ids.data } := by
      unfold Tensor.reshape
      rw [if_pos (by simp [hids])]
      rfl
    have h4 : Tensor.indexSelect0 w.contiguous
          { shape := [b * s], dtype := ids.dtype, data := ids.data }
        = .ok { shape := [b * s, h], dtype := w.dtype,
                data := (ids.data.map fun q => Tensor.rowOf w.data h q.num.toNat).flatten } := by
      unfold Tensor.indexSelect0 Tensor.contiguous
      have hall : ids.data.all
          (fun q => decide (0 ≤ q) && decide (q < ((v : ℕ) : ℚ)) && decide (q.den = 1)) = true := by
        apply List.all_eq_true.mpr
        intro q hq
        obtain ⟨n, rfl, hn⟩ := hvals q hq
        have l1 : (0 : ℚ) ≤ (n : ℚ) := Nat.cast_nonneg n
        have l2 : (n : ℚ) < (v : ℚ) := by exact_mod_cast hn
        have l3 : ((n : ℚ)).den = 1 := Rat.den_natCast n
        simp [l1, l2, l3]
      rw [hw]
      simp [hdt, hall]
    unfold gather_embeddings
    rw [if_pos hrank]
    simp only [hwd, hid2, h3, h4]
    unfold Tensor.reshape
    rw [if_pos (show ([b, s, h] : List Nat).prod
        = (Tensor.mk [b * s, h] w.dtype
            ((ids.data.map fun q => Tensor.rowOf w.data h q.num.toNat).flatten)).shape.prod by
      simp [Nat.mul_assoc])]
  · intro t ht
    unfold gather_embeddings
    rw [if_neg ht]
  · intro t
    unfold Tensor.toI64
    by_cases hd : t.dtype = .i64
    · rw [if_pos hd]
      exact ⟨hd, rfl⟩
    · rw [if_neg hd]
      exact ⟨rfl, rfl⟩

/-- C5 witness: ids of shape `[2, 3]` against the hidden-size-1 test table
resolve to embeddings of shape `[2, 3, 1]` with exactly the gathered rows. -/
theorem gather_embeddings_spec_witness :
    gather_embeddings testWeights.token_embedding idsT23
      = .ok { shape := [2, 3, 1], dtype := DType.f32, data := [10, 20, 20, 10, 10, 20] } := by
  have hv : ∀ q ∈ idsT23.data, ∃ n : Nat, q = (n : ℚ) ∧ n < 2 := by
    intro q hq
    simp [idsT23] at hq
    have hq01 : q = 0 ∨ q = 1 := by tauto
    rcases hq01 with h0 | h1
    · exact ⟨0, by norm_num [h0]⟩
    · exact ⟨1, by norm_num [h1]⟩
  have h := (gather_embeddings_spec testWeights.token_embedding idsT23 2 1 2 3
    rfl rfl rfl hv).1
  rw [h]
  rfl


/-- Helper: a successful `reshape` yields exactly the requested shape with
unchanged dtype and data. -/
theorem reshape_ok (t : Tensor) (s : List Nat) (u : Tensor) (h : t.reshape s = .ok u) :
    u.shape = s ∧ u.dtype = t.dtype ∧ u.data = t.data := by
  unfold Tensor.reshape at h
  split at h
  · cases h
    exact ⟨rfl, rfl, rfl⟩
  · cases h

/-- Helper: RMS normalisation preserves the input shape. -/
theorem rmsNorm_ok_shape (x alpha : Tensor) (eps : ℚ) (sq : ℚ → ℚ) (y : Tensor)
    (h : rmsNorm x alpha eps sq = .ok y) : y.shape = x.shape := by
  unfold rmsNorm at h
  split at h
  · split at h
    · cases h
      rfl
    · cases h
  · cases h

/-- Helper: `dims3` succeeds only by reporting the actual rank-3 shape. -/
theorem dims3_ok (t : Tensor) (a b c : Nat) (h : t.dims3 = .ok (a, b, c)) :
    t.shape = [a, b, c] := by
  unfold Tensor.dims3 at h
  split at h
  next a2 b2 c2 heq =>
    cases h
    exact heq
  next heq => cases h

/-- Helper: a successful output projection takes rank-3 hidden states
`[b, s, d]` to logits of shape `[b, s, vocab_size]`. -/
theorem project_output_ok (m : DeepseekLanguageModel) (sq : ℚ → ℚ) (hs : Tensor)
    (aux : Option Tensor) (out : LanguageModelOutput)
    (h : project_output m sq hs aux = .ok out) :
    ∃ b s d, hs.shape = [b, s, d] ∧ out.logits.shape = [b, s, m.cfg.vocab_size] := by
  unfold project_output at h
  cases hrm : rmsNorm hs m.final_layernorm m.cfg.rms_norm_eps sq with
  | error e => rw [hrm] at h; cases h
  | ok normed =>
    rw [hrm] at h
    simp only [] at h
    have hnsh : normed.shape = hs.shape := rmsNorm_ok_shape _ _ _ _ _ hrm
    cases hd3 : normed.dims3 with
    | error e => rw [hd3] at h; cases h
    | ok triple =>
      obtain ⟨b, s, d⟩ := triple
      rw [hd3] at h
      simp only [] at h
      have hsh3 : normed.shape = [b, s, d] := dims3_ok _ _ _ _ hd3
      cases hr1 : normed.reshape [b * s, d] with
      | error e => rw [hr1] at h; cases h
      | ok flat =>
        rw [hr1] at h
        simp only [] at h
        cases ht : m.lm_head.transpose2 with
        | error e => rw [ht] at h; cases h
        | ok lmT =>
          rw [ht] at h
          simp only [] at h
          cases hmm : flat.matmul lmT with
          | error e => rw [hmm] at h; cases h
          | ok prod =>
            rw [hmm] at h
            simp only [] at h
            cases hr2 : prod.reshape [b, s, m.cfg.vocab_size] with
            | error e => rw [hr2] at h; cases h
            | ok logits =>
              rw [hr2] at h
              simp only [] at h
              cases h
              exact ⟨b, s, d, hnsh ▸ hsh3, (reshape_ok _ _ _ hr2).1⟩

/-- C6: every successful forward call returns logits of shape
`[batch, seq, vocab]` whose final dimension is exactly the configured
vocabulary size, for every input batch/sequence shape — given the §4.3
decoder contract that hidden states keep the embeddings' batch/sequence
dimensions. -/
theorem forward_logits_vocab_shape
    (m : DeepseekLanguageModel) (dec : DecoderFn) (sq : ℚ → ℚ)
    (input_ids inputs_embeds attention_mask position_ids : Option Tensor)
    (cache : Option DynamicCache) (use_cache : Bool)
    (e : Tensor) (b s d : Nat)
    (hre : resolveEmbeds m input_ids inputs_embeds = .ok e)
    (hsh : e.shape = [b, s, d])
    (hdec : ∀ e' a' p' c' u' r c2, dec e' a' p' c' u' = (.ok r, c2) →
        r.hidden_states.shape.take 2 = e'.shape.take 2)
    (hok : isOkB (forward m dec sq input_ids inputs_embeds attention_mask position_ids
        cache use_cache).1 = true) :
    logitsShape (forward m dec sq input_ids inputs_embeds attention_mask position_ids
        cache use_cache) = [b, s, m.cfg.vocab_size] := by
  unfold forward at hok ⊢
  by_cases h1 : (input_ids.isSome == inputs_embeds.isSome) = true
  · rw [if_pos h1] at hok
    simp [isOkB] at hok
  · rw [if_neg h1] at hok ⊢
    by_cases h2 : (use_cache && cache.isNone) = true
    · rw [if_pos h2] at hok
      simp [isOkB] at hok
    · rw [if_neg h2] at hok ⊢
      rw [hre] at hok ⊢
      have hd3 : e.dims3 = .ok (b, s, d) := by simp [Tensor.dims3, hsh]
      simp only [hd3] at hok ⊢
      have htail : ∀ pos : Tensor,
          isOkB (match dec e attention_mask (some pos) cache use_cache with
            | (.error err, c2) => ((.error err : Except MErr LanguageModelOutput), c2)
            | (.ok dout, c2) =>
              match project_output m sq dout.hidden_states dout.aux_loss with
              | .error err => (.error err, c2)
              | .ok out => (.ok out, c2)).1 = true →
          logitsShape (match dec e attention_mask (some pos) cache use_cache with
            | (.error err, c2) => ((.error err : Except MErr LanguageModelOutput), c2)
            | (.ok dout, c2) =>
              match project_output m sq dout.hidden_states dout.aux_loss with
              | .error err => (.error err, c2)
              | .ok out => (.ok out, c2)) = [b, s, m.cfg.vocab_size] := by
        intro pos hok2
        cases hdd : dec e attention_mask (some pos) cache use_cache with
        | mk r c2 =>
          rw [hdd] at hok2
          cases r with
          | error err => simp [isOkB] at hok2
          | ok dout =>
            simp only [] at hok2 ⊢
            cases hp : project_output m sq dout.hidden_states dout.aux_loss with
            | error err =>
              rw [hp] at hok2
              simp [isOkB] at hok2
            | ok out =>
              simp only [] at hok2 ⊢
              obtain ⟨b2, s2, d2, hshape, hlog⟩ := project_output_ok m sq _ _ _ hp
              have ht2 := hdec e attention_mask (some pos) cache use_cache dout c2 hdd
              rw [hshape, hsh] at ht2
              simp at ht2
              obtain ⟨hb, hs2⟩ := ht2
              subst hb
              subst hs2
              simpa [logitsShape] using hlog
      cases position_ids with
      | some p =>
        exact htail p hok
      | none =>
        rw [synthesized_positions_eq] at hok ⊢
        exact htail _ hok

/-- C6 witness: the concrete `[1, 2]`-token call yields logits of shape
`[1, 2, 2]` with final dimension the configured vocabulary size 2. -/
theorem forward_logits_vocab_shape_witness :
    logitsShape (forward testModel echoDec oneSq (some idsT) none none none none false)
      = [1, 2, 2] := by
  have hdec : ∀ (e' : Tensor) (a' p' : Option Tensor) (c' : Option DynamicCache) (u' : Bool)
      (r : DecoderOutput) (c2 : Option DynamicCache),
      echoDec e' a' p' c' u' = (.ok r, c2) →
      r.hidden_states.shape.take 2 = e'.shape.take 2 := by
    intro e' a' p' c' u' r c2 h
    injection h with h1 h2
    injection h1 with h3
    rw [← h3]
  exact forward_logits_vocab_shape testModel echoDec oneSq (some idsT) none none none
    none false { shape := [1, 2, 1], dtype := .f32, data := [10, 20] } 1 2 1 rfl rfl hdec rfl

/-- Helper (modelled from the spec, §4.3/§4.4): a single decode call's
cache mutation adds exactly `n` to the tracked length, keeps the layer
count, and every existing layer entry becomes its old rows with the new
rows appended after them. -/
theorem appendStep_facts (c : DynamicCache) (n : Nat) (new : List LayerKV)
    (h : new.length = c.layers.length) :
    (c.appendStep n new).seqLength = c.seqLength + n
    ∧ (c.appendStep n new).layers.length = c.layers.length
    ∧ ∀ (i : Nat) (l : LayerKV), c.layers[i]? = some l →
        ∃ u, new[i]? = some u
          ∧ (c.appendStep n new).layers[i]? = some (l.appendTokens u) := by
  refine ⟨rfl, ?_, ?_⟩
  · simp [DynamicCache.appendStep, List.length_zipWith, h]
  · intro i l hl
    have hi : i < c.layers.length := by
      by_contra hge
      rw [List.getElem?_eq_none (by omega)] at hl
      cases hl
    have hiu : i < new.length := by omega
    have hl2 : c.layers[i] = l := by
      rw [List.getElem?_eq_getElem hi] at hl
      exact Option.some.inj hl
    refine ⟨new[i], List.getElem?_eq_getElem hiu, ?_⟩
    have hz : i < (c.appendStep n new).layers.length := by
      simp [DynamicCache.appendStep, List.length_zipWith]
      omega
    rw [List.getElem?_eq_getElem hz]
    simp only [DynamicCache.appendStep]
    congr 1
    rw [List.getElem_zipWith, hl2]

/-- C7: cache append-only law — over any sequence of decode steps on one
session's cache, the tracked sequence length grows by exactly the total
new-token count, the layer structure is preserved, and every previously
stored key/value row is unchanged (an exact prefix of the final entry,
with each entry extended by exactly the per-step new-token counts); new
rows are appended after, never inserted before or overwritten over,
existing ones. -/
theorem cache_append_only_law
    (c : DynamicCache) (steps : List (Nat × List LayerKV))
    (hw : ∀ st ∈ steps, st.2.length = c.layers.length
          ∧ ∀ u ∈ st.2, u.keys.length = st.1 ∧ u.values.length = st.1) :
    (c.appendRun steps).seqLength = c.seqLength + (steps.map Prod.fst).sum
    ∧ (c.appendRun steps).layers.length = c.layers.length
    ∧ ∀ (i : Nat) (l : LayerKV), c.layers[i]? = some l →
        ∃ l', (c.appendRun steps).layers[i]? = some l'
          ∧ l'.keys.take l.keys.length = l.keys
          ∧ l'.values.take l.values.length = l.values
          ∧ l'.keys.length = l.keys.length + (steps.map Prod.fst).sum
          ∧ l'.values.length = l.values.length + (steps.map Prod.fst).sum := by
  induction steps generalizing c with
  | nil =>
    refine ⟨by simp [DynamicCache.appendRun], rfl, ?_⟩
    intro i l hl
    exact ⟨l, hl, by simp, by simp, by simp, by simp⟩
  | cons st rest ih =>
    obtain ⟨hw1, hwu⟩ := hw st (List.mem_cons_self st rest)
    obtain ⟨hs1, hs2, hs3⟩ := appendStep_facts c st.1 st.2 hw1
    have hw' : ∀ st' ∈ rest, st'.2.length = (c.appendStep st.1 st.2).layers.length
        ∧ ∀ u ∈ st'.2, u.keys.length = st'.1 ∧ u.values.length = st'.1 := by
      intro st' hst'
      refine ⟨?_, (hw st' (List.mem_cons_of_mem st hst')).2⟩
      rw [hs2]
      exact (hw st' (List.mem_cons_of_mem st hst')).1
    obtain ⟨ih1, ih2, ih3⟩ := ih (c.appendStep st.1 st.2) hw'
    refine ⟨?_, ?_, ?_⟩
    · show ((c.appendStep st.1 st.2).appendRun rest).seqLength = _
      rw [ih1, hs1]
      simp
      omega
    · show ((c.appendStep st.1 st.2).appendRun rest).layers.length = _
      rw [ih2, hs2]
    · intro i l hl
      obtain ⟨u, hu, hstep⟩ := hs3 i l hl
      have hu_mem : u ∈ st.2 := List.getElem?_mem hu
      obtain ⟨huk, huv⟩ := hwu u hu_mem
      obtain ⟨l', hl', hk, hv, hkl, hvl⟩ := ih3 i (l.appendTokens u) hstep
      have happk : (l.appendTokens u).keys = l.keys ++ u.keys := rfl
      have happv : (l.appendTokens u).values = l.values ++ u.values := rfl
      refine ⟨l', hl', ?_, ?_, ?_, ?_⟩
      · have h1 : l.keys.length ≤ (l.appendTokens u).keys.length := by
          rw [happk]; simp
        calc l'.keys.take l.keys.length
            = (l'.keys.take (l.appendTokens u).keys.length).take l.keys.length := by
              rw [List.take_take, min_eq_left h1]
          _ = (l.keys ++ u.keys).take l.keys.length := by rw [hk, happk]
          _ = l.keys := List.take_left _ _
      · have h1 : l.values.length ≤ (l.appendTokens u).values.length := by
          rw [happv]; simp
        calc l'.values.take l.values.length
            = (l'.values.take (l.appendTokens u).values.length).take l.values.length := by
              rw [List.take_take, min_eq_left h1]
          _ = (l.values ++ u.values).take l.values.length := by rw [hv, happv]
          _ = l.values := List.take_left _ _
      · rw [happk] at hkl
        simp [List.length_append, huk] at hkl
        simp
        omega
      · rw [happv] at hvl
        simp [List.length_append, huv] at hvl
        simp
        omega

/-- C7 witness: two concrete decode steps (2 tokens then 1 token) on a
cache of length 1 leave the stored row intact as the prefix and extend
the length to 4. -/
theorem cache_append_only_law_witness :
    (capCache1.appendRun capSteps).seqLength = 4
    ∧ ∃ l', (capCache1.appendRun capSteps).layers[0]? = some l'
        ∧ l'.keys.take 1 = [[9]]
        ∧ l'.values.take 1 = [[8]]
        ∧ l'.keys.length = 4
        ∧ l'.values.length = 4 := by
  obtain ⟨h1, h2, h3⟩ := cache_append_only_law capCache1 capSteps (by decide)
  refine ⟨by simpa [capCache1, capSteps] using h1, ?_⟩
  obtain ⟨l', hl', hk, hv, hkl, hvl⟩ := h3 0 { keys := [[9]], values := [[8]] } rfl
  exact ⟨l', hl', by simpa using hk, by simpa using hv,
    by simpa [capCache1, capSteps] using hkl, by simpa [capCache1, capSteps] using hvl⟩

/-- C8: resolution of the attention-kernel choice at construction — the
environment override is recognised case-insensitively as true for
`1`/`true`/`yes` and false for `0`/`false`/`no`; any other value is
ignored so the configured default applies; a recognised override takes
precedence over the configuration; and the resolved choice is stored in
the model (`flash_attention_enabled` reads the stored field; `forward`
takes no environment input, so the choice is never re-resolved per call). -/
theorem from_weights_flash_attention_resolution :
    (∀ cfg w s, (asciiLower s = "1" ∨ asciiLower s = "true" ∨ asciiLower s = "yes") →
        (from_weights cfg w (some s)).useFlashAttention = true)
    ∧ (∀ cfg w s, (asciiLower s = "0" ∨ asciiLower s = "false" ∨ asciiLower s = "no") →
        (from_weights cfg w (some s)).useFlashAttention = false)
    ∧ (∀ cfg w env, parseFlashOverride env = none →
        (from_weights cfg w env).useFlashAttention = flashFromConfig cfg)
    ∧ (∀ cfg w s bv, parseFlashOverride (some s) = some bv →
        (from_weights cfg w (some s)).useFlashAttention = bv)
    ∧ (∀ cfg w, flash_attention_enabled (from_weights cfg w none) = flashFromConfig cfg) := by
  refine ⟨?_, ?_, ?_, ?_, fun _ _ => rfl⟩
  · intro cfg w s hs
    have hp : parseFlashOverride (some s) = some true := by
      simp only [parseFlashOverride]
      rcases hs with h | h | h <;> rw [h] <;> rfl
    simp [from_weights, hp]
  · intro cfg w s hs
    have hp : parseFlashOverride (some s) = some false := by
      simp only [parseFlashOverride]
      rcases hs with h | h | h <;> rw [h] <;> rfl
    simp [from_weights, hp]
  · intro cfg w env hp
    simp [from_weights, hp]
  · intro cfg w s bv hp
    simp [from_weights, hp]

/-- C8 witness: `TRUE` (case-insensitive) turns the kernel on over a
non-flash config; `No` turns it off even though the config selects
flash attention (override precedence); an unrecognised value falls back to
the configured default, which for `cfgFlash` is `true`. -/
theorem from_weights_flash_attention_resolution_witness :
    (from_weights testCfg testWeights (some "TRUE")).useFlashAttention = true
    ∧ (from_weights cfgFlash testWeights (some "No")).useFlashAttention = false
    ∧ (from_weights cfgFlash testWeights (some "maybe")).useFlashAttention
        = flashFromConfig cfgFlash
    ∧ flashFromConfig cfgFlash = true
    ∧ flash_attention_enabled (from_weights cfgFlash testWeights none)
        = flashFromConfig cfgFlash := by
  refine ⟨?_, ?_, ?_, by decide, ?_⟩
  · exact (from_weights_flash_attention_resolution).1 testCfg testWeights "TRUE"
      (Or.inr (Or.inl (by decide)))
  · exact (from_weights_flash_attention_resolution).2.1 cfgFlash testWeights "No"
      (Or.inr (Or.inr (by decide)))
  · exact (from_weights_flash_attention_resolution).2.2.1 cfgFlash testWeights
      (some "maybe") (by decide)
  · exact (from_weights_flash_attention_resolution).2.2.2.2 cfgFlash testWeights

/-- C9: determinism of `forward` — two calls with the same model (weights
and resolved kernel choice), the same decoder stack, the same square-root
kernel, and identical inputs and cache state produce identical results
(output and post-call cache state); the embedding makes all state explicit,
so no shared state beyond the supplied cache can be touched. -/
theorem forward_deterministic
    (m : DeepseekLanguageModel) (dec : DecoderFn) (sq : ℚ → ℚ)
    (ids1 emb1 mask1 pos1 ids2 emb2 mask2 pos2 : Option Tensor)
    (c1 c2 : Option DynamicCache) (u1 u2 : Bool)
    (h : (ids1, emb1, mask1, pos1, c1, u1) = (ids2, emb2, mask2, pos2, c2, u2)) :
    forward m dec sq ids1 emb1 mask1 pos1 c1 u1
      = forward m dec sq ids2 emb2 mask2 pos2 c2 u2 := by
  cases h
  rfl

/-- C9 witness: two identical concrete calls agree. -/
theorem forward_deterministic_witness :
    forward testModel echoDec oneSq (some idsT) none none none none false
      = forward testModel echoDec oneSq (some idsT) none none none none false :=
  forward_deterministic testModel echoDec oneSq (some idsT) none none none
    (some idsT) none none none none none false false rfl

/-- C10: `prepare_device_and_dtype_with_options` rejects a
`gpu_memory_utilization` outside `[0, 1]` — independently of device kind
and of whether Metal/CUDA could even be initialised, i.e. before any
device initialisation — then rejects `max_num_seqs = 0`; when both are
absent or within range the checks pass and device/precision resolution
proceeds: CPU defaults to no dtype, Metal/CUDA default to F16 when no
precision is given. -/
theorem prepare_device_and_dtype_validation :
    (∀ dev prec gm ms mOk cOk u, gm = some u → ¬(0 ≤ u ∧ u ≤ 1) →
        prepare_device_and_dtype_with_options dev prec gm ms mOk cOk
          = .error (.gpuMemOutOfRange u))
    ∧ (∀ dev prec gm mOk cOk, (∀ u ∈ gm, 0 ≤ u ∧ u ≤ 1) →
        prepare_device_and_dtype_with_options dev prec gm (some 0) mOk cOk
          = .error .maxSeqsZero)
    ∧ (∀ prec gm ms mOk cOk, (∀ u ∈ gm, 0 ≤ u ∧ u ≤ 1) → (∀ n ∈ ms, n ≠ 0) →
        prepare_device_and_dtype_with_options .cpu prec gm ms mOk cOk
          = .ok (.cpu, prec.map dtype_from_precision))
    ∧ (∀ prec gm ms cOk, (∀ u ∈ gm, 0 ≤ u ∧ u ≤ 1) → (∀ n ∈ ms, n ≠ 0) →
        prepare_device_and_dtype_with_options .metal prec gm ms true cOk
          = .ok (.metal, some (dtype_from_precision (prec.getD .f16))))
    ∧ (∀ prec gm ms mOk, (∀ u ∈ gm, 0 ≤ u ∧ u ≤ 1) → (∀ n ∈ ms, n ≠ 0) →
        prepare_device_and_dtype_with_options .cuda prec gm ms mOk true
          = .ok (.cuda, some (dtype_from_precision (prec.getD .f16)))) := by
  refine ⟨?_, ?_, ?_, ?_, ?_⟩
  · intro dev prec gm ms mOk cOk u hgm hbad
    subst hgm
    simp [prepare_device_and_dtype_with_options, hbad]
  · intro dev prec gm mOk cOk hgm
    cases gm with
    | none => simp [prepare_device_and_dtype_with_options]
    | some u =>
      have hu := hgm u rfl
      simp [prepare_device_and_dtype_with_options, hu]
  · intro prec gm ms mOk cOk hgm hms
    cases gm with
    | none =>
      cases ms with
      | none => simp [prepare_device_and_dtype_with_options, resolveDevice]
      | some nn =>
        have hn := hms nn rfl
        simp [prepare_device_and_dtype_with_options, resolveDevice, hn]
    | some u =>
      have hu := hgm u rfl
      cases ms with
      | none => simp [prepare_device_and_dtype_with_options, resolveDevice, hu]
      | some nn =>
        have hn := hms nn rfl
        simp [prepare_device_and_dtype_with_options, resolveDevice, hu, hn]
  · intro prec gm ms cOk hgm hms
    cases gm with
    | none =>
      cases ms with
      | none =>
        cases prec <;> simp [prepare_device_and_dtype_with_options, resolveDevice]
      | some nn =>
        have hn := hms nn rfl
        cases prec <;> simp [prepare_device_and_dtype_with_options, resolveDevice, hn]
    | some u =>
      have hu := hgm u rfl
      cases ms with
      | none => cases prec <;> simp [prepare_device_and_dtype_with_options, resolveDevice, hu]
      | some nn =>
        have hn := hms nn rfl
        cases prec <;> simp [prepare_device_and_dtype_with_options, resolveDevice, hu, hn]
  · intro prec gm ms mOk hgm hms
    cases gm with
    | none =>
      cases ms with
      | none =>
        cases prec <;> simp [prepare_device_and_dtype_with_options, resolveDevice]
      | some nn =>
        have hn := hms nn rfl
        cases prec <;> simp [prepare_device_and_dtype_with_options, resolveDevice, hn]
    | some u =>
      have hu := hgm u rfl
      cases ms with
      | none => cases prec <;> simp [prepare_device_and_dtype_with_options, resolveDevice, hu]
      | some nn =>
        have hn := hms nn rfl
        cases prec <;> simp [prepare_device_and_dtype_with_options, resolveDevice, hu, hn]

/-- C10 witness: utilization 2 is rejected (even with both accelerators
unavailable and `max_num_seqs = 0` also supplied), `max_num_seqs = 0` is
rejected after an in-range utilization, and CPU/Metal/CUDA calls with
valid options resolve their default precisions. -/
theorem prepare_device_and_dtype_validation_witness :
    prepare_device_and_dtype_with_options .cpu none (some 2) (some 0) false false
        = .error (.gpuMemOutOfRange 2)
    ∧ prepare_device_and_dtype_with_options .metal (some .f32) (some 1) (some 0) true true
        = .error .maxSeqsZero
    ∧ prepare_device_and_dtype_with_options .cpu none none (some 4) false false
        = .ok (.cpu, none)
    ∧ prepare_device_and_dtype_with_options .metal none (some 1) none true false
        = .ok (.metal, some .f16)
    ∧ prepare_device_and_dtype_with_options .cuda (some .bf16) none (some 2) false true
        = .ok (.cuda, some .bf16) := by
  refine ⟨?_, ?_, ?_, ?_, ?_⟩
  · exact prepare_device_and_dtype_validation.1 .cpu none (some 2) (some 0) false false 2
      rfl (by decide)
  · exact prepare_device_and_dtype_validation.2.1 .metal (some .f32) (some 1) true true
      (by intro u hu; simp [Option.mem_def] at hu; subst hu; decide)
  · exact prepare_device_and_dtype_validation.2.2.1 none none (some 4) false false
      (by intro u hu; simp [Option.mem_def] at hu)
      (by intro n hn; simp [Option.mem_def] at hn; omega)
  · exact prepare_device_and_dtype_validation.2.2.2.1 none (some 1) none false
      (by intro u hu; simp [Option.mem_def] at hu; subst hu; decide)
      (by intro n hn; simp [Option.mem_def] at hn)
  · exact prepare_device_and_dtype_validation.2.2.2.2 (some .bf16) none (some 2) false
      (by intro u hu; simp [Option.mem_def] at hu)
      (by intro n hn; simp [Option.mem_def] at hn; omega)

end DeepseekOcr
